import Mathlib

/-!
Verification of the GPJax Bayesian-optimisation layer against its
natural-language specification.

The development shallowly embeds the relevant parts of the repository:
`docs/examples/bayesian_optimisation.py` (the `optimise_sample` acquisition
maximiser and the Thompson-sampling BO loop), `gpjax/config.py` (the global
configuration registry) and, for components of the library whose sources are
not provided (the `sample_approx` pathwise sampler, the `Dataset` container,
the Expected-Improvement / Probability-of-Improvement acquisition functions
and the bound-constrained local optimiser), models written from the
specification's own words.  Real-valued machine arithmetic is embedded as
exact rational arithmetic so that every definition is executable.
-/

namespace GPJax

/-! ## Pseudo-random stream

Modelled from the spec: the "opaque, splittable source of randomness" (§6) —
a pseudo-random stream "derived solely from `seed`" (§4.3).  We realise it as
a linear-congruential mixing function: deterministic and side-effect-free. -/

/-- One pseudo-random word, mixed from the seed and the stream index. -/
def lcgMix (seed i : Nat) : Nat :=
  (1103515245 * (seed * 1000003 + i) + 12345) % 2147483648

/-- A pseudo-random rational in `[-1, 1)`, the `i`-th draw of the stream of
`seed`. -/
def streamWeight (seed i : Nat) : ℚ :=
  ((lcgMix seed i : ℚ) - 1073741824) / 1073741824

/-- A pseudo-random rational in `[0, 1)`, the `i`-th draw of the stream of
`seed` (used for uniform candidate sampling). -/
def unitSample (seed i : Nat) : ℚ :=
  (lcgMix seed i : ℚ) / 2147483648

/-! ## Approximate sample functions (decoupled sampling)

Modelled from the spec (§4.3): `sample_approx` builds a sample function as a
finite random-feature expansion whose coefficients are consumed from the
pseudo-random stream derived solely from the seed.  The trigonometric basis
of the Fourier-feature expansion is replaced by a computable polynomial
basis; the properties at issue (determinism in the seed, sensitivity to the
seed, and the `ValueError` preconditions) concern only the stream of feature
weights, not the shape of the basis functions. -/

/-- The `i`-th basis function of the finite feature expansion (a computable
stand-in for a Fourier feature). -/
def featureFn (i : Nat) (x : ℚ) : ℚ := x ^ i

/-- The sample function produced by the pathwise sampler for a given number
of features and a given seed: a weighted sum of basis functions, the weights
consumed from the pseudo-random stream of the seed. -/
def sampleFn (numFeatures seed : Nat) (x : ℚ) : ℚ :=
  (List.range numFeatures).foldl (fun acc i => acc + streamWeight seed i * featureFn i x) 0

/-- Evaluate a sample function on an evaluation grid (the callable is
"vectorised over query points", §4.3). -/
def evalGrid (numFeatures seed : Nat) (grid : List ℚ) : List ℚ :=
  grid.map (sampleFn numFeatures seed)

/-- `max(|a - b|)` over two vectors of evaluations, exactly as computed by
`jnp.max(jnp.abs(evals - evals_2))` in `tests/test_gps.py`. -/
def maxAbsDiff (xs ys : List ℚ) : ℚ :=
  (List.zipWith (fun a b => |a - b|) xs ys).foldl max 0

/-- The evaluation grid `jnp.linspace(-3.0, 3.0, 5)` of
`tests/test_gps.py::test_prior_sample_approx`. -/
def testGrid : List ℚ := [-3, -3/2, 0, 3/2, 3]

/-- Errors of the library's error taxonomy that the embedded operations can
raise (spec §7). -/
inductive GPError where
  | valueError
deriving DecidableEq, Repr

/-- A rational argument is "a positive integer" when it is positive and has
denominator one (callers may pass arbitrary Python numbers). -/
def posIntQ (q : ℚ) : Bool := (0 < q.num) && (q.den == 1)

/-- Modelled from the spec (§4.3): `sample_approx(num_samples, dataset/params,
seed, num_features)`.  "Preconditions: `num_samples` is a positive integer
(fails `ValueError` otherwise); `num_features` is a positive integer (fails
`ValueError` otherwise)"; on success it returns the sample callable.  The
`params` argument abstracts the dataset/parameter set, which the validation
does not inspect. -/
def sample_approx (num_samples : ℚ) (params seed : Nat) (num_features : ℚ) :
    Except GPError (ℚ → ℚ) :=
  if posIntQ num_samples then
    if posIntQ num_features then
      Except.ok (fun x => params * 0 + sampleFn num_features.num.toNat seed x)
    else Except.error GPError.valueError
  else Except.error GPError.valueError

lemma zipWith_absDiff_self (l : List ℚ) :
    List.zipWith (fun a b => |a - b|) l l = List.replicate l.length 0 := by
  induction l with
  | nil => rfl
  | cons a as ih => simp [List.zipWith, ih, List.replicate]

lemma foldl_max_replicate_zero (n : Nat) :
    (List.replicate n (0 : ℚ)).foldl max 0 = 0 := by
  induction n with
  | zero => rfl
  | succ n ih => simpa [List.replicate] using ih

lemma maxAbsDiff_self (l : List ℚ) : maxAbsDiff l l = 0 := by
  rw [maxAbsDiff, zipWith_absDiff_self, foldl_max_replicate_zero]

/-! ## The acquisition maximiser (`optimise_sample`)

Embedded from `docs/examples/bayesian_optimisation.py` (lines 278-300):
`optimise_sample` draws `num_initial_sample_points` candidates uniformly in
the box `[lower_bound, upper_bound]`, evaluates the drawn sample at all of
them, takes the candidate with the lowest sample value (`jnp.argmin`, which
returns the first index attaining the minimum) as the start point, and runs
the bound-constrained L-BFGS-B optimiser from there.  Points are vectors in
`ℝ^D`, embedded as `List ℚ`. -/

/-- The first index of a minimal element of a list, exactly the semantics of
`jnp.argmin` applied to the candidate evaluations. -/
def argminIdx : List ℚ → Nat
  | [] => 0
  | [_] => 0
  | a :: b :: rest =>
    if (b :: rest).getD (argminIdx (b :: rest)) 0 < a then argminIdx (b :: rest) + 1 else 0

lemma argminIdx_lt_length (l : List ℚ) (h : l ≠ []) : argminIdx l < l.length := by
  induction l with
  | nil => exact absurd rfl h
  | cons a tail ih =>
    cases tail with
    | nil => simp [argminIdx]
    | cons b rest =>
      rw [argminIdx]
      split
      · have := ih (by simp)
        simpa using Nat.succ_lt_succ this
      · simp

lemma argminIdx_le (l : List ℚ) : ∀ i, i < l.length → l.getD (argminIdx l) 0 ≤ l.getD i 0 := by
  induction l with
  | nil => intro i hi; simp at hi
  | cons a tail ih =>
    cases tail with
    | nil =>
      intro i hi
      have : i = 0 := by simpa using Nat.lt_one_iff.mp (by simpa using hi)
      subst this
      simp [argminIdx]
    | cons b rest =>
      intro i hi
      rw [argminIdx]
      split
      · rename_i hlt
        rw [List.getD_cons_succ]
        cases i with
        | zero => exact le_of_lt (by simpa using hlt)
        | succ j =>
          rw [List.getD_cons_succ]
          exact ih j (by simpa using hi)
      · rename_i hge
        push_neg at hge
        rw [List.getD_cons_zero]
        cases i with
        | zero => simp
        | succ j =>
          rw [List.getD_cons_succ]
          exact le_trans hge (ih j (by simpa using hi))

lemma argminIdx_first (l : List ℚ) :
    ∀ i, i < argminIdx l → l.getD (argminIdx l) 0 < l.getD i 0 := by
  induction l with
  | nil => intro i hi; simp [argminIdx] at hi
  | cons a tail ih =>
    cases tail with
    | nil => intro i hi; simp [argminIdx] at hi
    | cons b rest =>
      intro i hi
      rw [argminIdx] at hi ⊢
      split
      · rename_i hlt
        rw [List.getD_cons_succ]
        cases i with
        | zero => simpa using hlt
        | succ j =>
          rw [List.getD_cons_succ]
          rw [if_pos hlt] at hi
          exact ih j (by omega)
      · rename_i hge
        rw [if_neg hge] at hi
        omega

/-- The uniform candidate draw of `optimise_sample`
(`jr.uniform(key, shape=(k, D), minval=lower_bound, maxval=upper_bound)`):
coordinate `j` of candidate `i` is scaled into `[lb j, ub j)` from the
pseudo-random stream of the seed. -/
def drawPoint (seed i : Nat) (lb ub : List ℚ) : List ℚ :=
  (List.range lb.length).map
    (fun j => lb.getD j 0 + (ub.getD j 0 - lb.getD j 0) * unitSample seed (i * lb.length + j))

/-- The `num_initial_sample_points` candidates drawn by `optimise_sample`. -/
def drawCandidates (seed k : Nat) (lb ub : List ℚ) : List (List ℚ) :=
  (List.range k).map (fun i => drawPoint seed i lb ub)

/-- Clip a point onto the box `[lb, ub]` coordinatewise.  Modelled from the
spec (§4.5): the maximiser "must clip/enforce the result lies within bounds
despite floating-point overshoot from the local optimiser" — in the source
this enforcement lives inside the external bound-constrained L-BFGS-B
optimiser (`ScipyBoundedMinimize`), whose code is not part of the
repository. -/
def clampPoint (lb ub x : List ℚ) : List ℚ :=
  (List.range lb.length).map
    (fun j => max (lb.getD j 0) (min (ub.getD j 0) (x.getD j 0)))

/-- Modelled from the spec (§4.5): the bound-constrained quasi-Newton local
optimiser (`ScipyBoundedMinimize` with method `l-bfgs-b`), abstracted as an
arbitrary iteration `step` (so the theorems quantify over every possible
numerical behaviour, overshoot included) followed by the enforcement of the
box constraints. -/
def localOpt (step : List ℚ → List ℚ) (lb ub x : List ℚ) : List ℚ :=
  clampPoint lb ub (step x)

/-- The candidate evaluations `initial_sample_y = sample(initial_sample_points)`
of `optimise_sample`. -/
def candidateValues (g : List ℚ → ℚ) (seed k : Nat) (lb ub : List ℚ) : List ℚ :=
  (drawCandidates seed k lb ub).map g

/-- The index of the starting point
`jnp.argmin(initial_sample_y)` of `optimise_sample`. -/
def startIndex (g : List ℚ → ℚ) (seed k : Nat) (lb ub : List ℚ) : Nat :=
  argminIdx (candidateValues g seed k lb ub)

/-- Embeds `optimise_sample` from `docs/examples/bayesian_optimisation.py`:
draw `k` candidates, evaluate the sample at all of them, start the bounded
local optimiser from the first candidate attaining the minimal value, and
return the optimised point. -/
def optimise_sample (g : List ℚ → ℚ) (step : List ℚ → List ℚ) (seed k : Nat)
    (lb ub : List ℚ) : List ℚ :=
  let cands := drawCandidates seed k lb ub
  let best_x := cands.getD (argminIdx (cands.map g)) []
  localOpt step lb ub best_x

/-! ## Thompson sampling

From `docs/examples/bayesian_optimisation.py`: each BO iteration calls
`opt_posterior.sample_approx(num_samples=1, train_data=D, key=subkey,
num_features=500)` — one posterior sample path per iteration — and from the
spec (§4.4) the Thompson-sampling utility is the negated sample,
`x ↦ -g(x)` (the `ThompsonSampling` builder class itself is not among the
provided sources). -/

/-- The number of posterior sample paths drawn per BO iteration
(`num_samples=1` in the `sample_approx` call of the loop). -/
def bo_loop_num_samples : Nat := 1

/-- The number of random features of the `sample_approx` call of the loop. -/
def bo_loop_num_features : Nat := 500

/-- Modelled from the spec (§4.4): the Thompson-sampling utility
`U(x) = -g(x)` for a drawn sample path `g`. -/
def thompsonUtility (g : List ℚ → ℚ) (x : List ℚ) : ℚ := - g x

/-! ## Datasets

Modelled from the spec (§3): a `Dataset` is an "ordered sequence of
(x ∈ ℝ^d, y ∈ ℝ^m) pairs, stored as two aligned arrays `X` (n×d) and `y`
(n×m)"; concatenation `D1 + D2` requires matching `d`, `m` and "produces a
new immutable Dataset".  (The `gpjax` `Dataset` class itself is not among
the provided sources; its use `D = D + gpx.Dataset(X=x_star, y=y_star)` is,
in `docs/examples/bayesian_optimisation.py`.) -/

structure GDataset where
  X : List (List ℚ)
  y : List (List ℚ)
deriving DecidableEq, Repr

/-- Concatenation of two datasets: the rows of the first followed by the
rows of the second. -/
def GDataset.addData (D1 D2 : GDataset) : GDataset :=
  { X := D1.X ++ D2.X, y := D1.y ++ D2.y }

instance : Add GDataset := ⟨GDataset.addData⟩

/-- The ordered `(x, y)` rows of a dataset. -/
def GDataset.rows (D : GDataset) : List (List ℚ × List ℚ) := D.X.zip D.y

/-- A dataset has input dimension `d` and output dimension `m`, with its two
arrays aligned (the `X.rows == y.rows` invariant of §3). -/
def GDataset.dimsOk (d m : Nat) (D : GDataset) : Prop :=
  D.X.length = D.y.length ∧ (∀ r ∈ D.X, r.length = d) ∧ (∀ r ∈ D.y, r.length = m)

instance (d m : Nat) (D : GDataset) : Decidable (GDataset.dimsOk d m D) := by
  unfold GDataset.dimsOk; infer_instance

/-! ## The running best observation

Embedded from `docs/examples/bayesian_optimisation.py`: the BO loop starts
from the 5 Halton-sampled initial observations and appends one observation
per iteration (`D = D + gpx.Dataset(X=x_star, y=y_star)`); afterwards
`cumulative_best_y = jax.lax.associative_scan(jax.numpy.minimum, D.y)`
computes the running best (cumulative minimum) of the observations in
evaluation order. -/

/-- The inclusive cumulative minimum continuing from an accumulator. -/
def cumulativeMinFrom (acc : ℚ) : List ℚ → List ℚ
  | [] => []
  | a :: rest => min acc a :: cumulativeMinFrom (min acc a) rest

/-- `jax.lax.associative_scan(jax.numpy.minimum, ys)`: the inclusive
cumulative minimum of the observations in evaluation order. -/
def cumulative_best_y : List ℚ → List ℚ
  | [] => []
  | a :: rest => a :: cumulativeMinFrom a rest

/-- The minimum over a list of observed values (`0` for an empty record;
the scenarios at issue always observe at least the initial design). -/
def bestObserved : List ℚ → ℚ
  | [] => 0
  | a :: rest => rest.foldl min a

lemma foldl_min_le_init (a : ℚ) (l : List ℚ) : l.foldl min a ≤ a := by
  induction l generalizing a with
  | nil => simp
  | cons x xs ih => exact le_trans (ih (min a x)) (min_le_left a x)

lemma bestObserved_append_le (l1 l2 : List ℚ) (h : l1 ≠ []) :
    bestObserved (l1 ++ l2) ≤ bestObserved l1 := by
  cases l1 with
  | nil => exact absurd rfl h
  | cons a r =>
    show (r ++ l2).foldl min a ≤ r.foldl min a
    rw [List.foldl_append]
    exact foldl_min_le_init _ _

lemma cumulativeMinFrom_le_acc (acc : ℚ) (l : List ℚ) :
    ∀ i, i < l.length → (cumulativeMinFrom acc l).getD i 0 ≤ acc := by
  induction l generalizing acc with
  | nil => intro i hi; simp at hi
  | cons a rest ih =>
    intro i hi
    cases i with
    | zero => simp [cumulativeMinFrom]
    | succ j =>
      have := ih (min acc a) j (by simpa using hi)
      calc (cumulativeMinFrom acc (a :: rest)).getD (j + 1) 0
          = (cumulativeMinFrom (min acc a) rest).getD j 0 := by
            simp [cumulativeMinFrom]
        _ ≤ min acc a := this
        _ ≤ acc := min_le_left acc a

lemma cumulativeMinFrom_antitone (acc : ℚ) (l : List ℚ) :
    ∀ i j, i ≤ j → j < l.length →
      (cumulativeMinFrom acc l).getD j 0 ≤ (cumulativeMinFrom acc l).getD i 0 := by
  induction l generalizing acc with
  | nil => intro i j _ hj; simp at hj
  | cons a rest ih =>
    intro i j hij hj
    cases i with
    | zero =>
      cases j with
      | zero => exact le_refl _
      | succ j' =>
        have := cumulativeMinFrom_le_acc (min acc a) rest j' (by simpa using hj)
        simpa [cumulativeMinFrom] using this
    | succ i' =>
      cases j with
      | zero => omega
      | succ j' =>
        have := ih (min acc a) i' j' (by omega) (by simpa using hj)
        simpa [cumulativeMinFrom] using this

lemma cumulative_best_y_antitone (ys : List ℚ) :
    ∀ i j, i ≤ j → j < ys.length →
      (cumulative_best_y ys).getD j 0 ≤ (cumulative_best_y ys).getD i 0 := by
  cases ys with
  | nil => intro i j _ hj; simp at hj
  | cons a rest =>
    intro i j hij hj
    cases i with
    | zero =>
      cases j with
      | zero => exact le_refl _
      | succ j' =>
        have h1 := cumulativeMinFrom_le_acc a rest j' (by simpa using hj)
        simpa [cumulative_best_y] using h1
    | succ i' =>
      cases j with
      | zero => omega
      | succ j' =>
        have := cumulativeMinFrom_antitone a rest i' j' (by omega) (by simpa using hj)
        simpa [cumulative_best_y] using this

/-! ## Expected Improvement and Probability of Improvement

Modelled from the spec (§4.4): "closed-form functions of the posterior
predictive mean/std at `x` and the current best observed value `f*` ...
use the standard-normal CDF/PDF.  Must handle the degenerate case
`σ(x) = 0` by returning utility 0 ... rather than dividing by zero."  The
acquisition-function module is not among the provided sources (only the
importing module `gpjax/decision_making/__init__.py` and the formulas in the
example notebook are); the standard-normal CDF `Phi` and PDF `phi` are
abstracted as function parameters. -/

/-- Expected Improvement at predictive mean `mu`, predictive standard
deviation `sigma`, and incumbent best `fstar`. -/
def expectedImprovement (Phi phi : ℚ → ℚ) (mu sigma fstar : ℚ) : ℚ :=
  if sigma = 0 then 0
  else (fstar - mu) * Phi ((fstar - mu) / sigma) + sigma * phi ((fstar - mu) / sigma)

/-- Probability of Improvement at predictive mean `mu`, predictive standard
deviation `sigma`, and incumbent best `fstar`. -/
def probabilityOfImprovement (Phi : ℚ → ℚ) (mu sigma fstar : ℚ) : ℚ :=
  if sigma = 0 then 0 else Phi ((fstar - mu) / sigma)

/-! ## The global configuration registry (`gpjax/config.py`)

Embedded from `gpjax/config.py`.  Bijection/`Transform` objects are
identified abstractly by numbers; the values of the `transformations`
`ConfigDict` are either such a transform object or a string naming one.
The module-level state `__config` is an `Option GPConfig` (`None` before
the first `get_defaults` call); every stateful operation takes the state
and returns the new one.  The Python guard `if not __config` is falsy
exactly on `None` here: every configuration ever stored is a `ConfigDict`
populated with the default fields, which is truthy. -/

/-- A value of the `transformations` `ConfigDict`: either a `Transform`
object (identified by a number) or a string naming another entry. -/
inductive CfgVal where
  | transform (id : Nat)
  | name (s : String)
deriving DecidableEq, Repr

/-- The `ConfigDict` of `gpjax/config.py`: the PRNG key, the jitter, and the
`transformations` dictionary as an ordered association list. -/
structure GPConfig where
  key : Nat
  jitter : ℚ
  transformations : List (String × CfgVal)
deriving DecidableEq, Repr

/-- Dictionary assignment `d[k] = v`: update the existing entry in place or
append a new one. -/
def setEntry : List (String × CfgVal) → String → CfgVal → List (String × CfgVal)
  | [], k, v => [(k, v)]
  | (k', v') :: rest, k, v =>
    if k' = k then (k, v) :: rest else (k', v') :: setEntry rest k v

/-- Dictionary lookup `d[k]`. -/
def lookupEntry : List (String × CfgVal) → String → Option CfgVal
  | [], _ => none
  | (k', v') :: rest, k => if k' = k then some v' else lookupEntry rest k

/-- The fresh default configuration constructed inside `get_defaults`
(`gpjax/config.py` lines 16-43). -/
def defaultConfig : GPConfig :=
  { key := 123
    jitter := 1/1000000
    transformations := [
      ("positive_transform", CfgVal.transform 0),
      ("identity_transform", CfgVal.transform 1),
      ("triangular_transform", CfgVal.transform 2),
      ("lengthscale", CfgVal.name "positive_transform"),
      ("variance", CfgVal.name "positive_transform"),
      ("smoothness", CfgVal.name "positive_transform"),
      ("shift", CfgVal.name "positive_transform"),
      ("obs_noise", CfgVal.name "positive_transform"),
      ("latent", CfgVal.name "identity_transform"),
      ("basis_fns", CfgVal.name "identity_transform"),
      ("offset", CfgVal.name "identity_transform"),
      ("inducing_inputs", CfgVal.name "identity_transform"),
      ("variational_mean", CfgVal.name "identity_transform"),
      ("variational_root_covariance", CfgVal.name "triangular_transform"),
      ("natural_vector", CfgVal.name "identity_transform"),
      ("natural_matrix", CfgVal.name "identity_transform"),
      ("expectation_vector", CfgVal.name "identity_transform"),
      ("expectation_matrix", CfgVal.name "identity_transform")] }

/-- `get_defaults` (`gpjax/config.py` lines 10-48): construct the default
configuration, register it globally only if no configuration is registered
yet (`if not __config`), and return the registered configuration.  Returns
the function's result together with the new module state. -/
def get_defaults (st : Option GPConfig) : GPConfig × Option GPConfig :=
  match st with
  | none => (defaultConfig, some defaultConfig)
  | some c => (c, some c)

/-- `add_parameter` (`gpjax/config.py` lines 51-61): ensure the registry is
initialised via `get_defaults()`, then set
`__config.transformations["{param_name}_transform"] = bijection` and
`__config.transformations[param_name] = "{param_name}_transform"`. -/
def add_parameter (param_name : String) (bijection : Nat) (st : Option GPConfig) :
    Option GPConfig :=
  let st1 := (get_defaults st).2
  match st1 with
  | none => none
  | some c =>
    some { c with
      transformations :=
        setEntry (setEntry c.transformations (param_name ++ "_transform")
          (CfgVal.transform bijection)) param_name
          (CfgVal.name (param_name ++ "_transform")) }

lemma lookupEntry_setEntry_same (l : List (String × CfgVal)) (k : String) (v : CfgVal) :
    lookupEntry (setEntry l k v) k = some v := by
  induction l with
  | nil => simp [setEntry, lookupEntry]
  | cons p rest ih =>
    obtain ⟨k', v'⟩ := p
    by_cases h : k' = k
    · simp [setEntry, lookupEntry, h]
    · simp [setEntry, lookupEntry, h, ih]

lemma lookupEntry_setEntry_other (l : List (String × CfgVal)) (k k2 : String) (v : CfgVal)
    (h : k ≠ k2) : lookupEntry (setEntry l k v) k2 = lookupEntry l k2 := by
  induction l with
  | nil => simp [setEntry, lookupEntry, h]
  | cons p rest ih =>
    obtain ⟨k', v'⟩ := p
    by_cases hk : k' = k
    · subst hk
      simp [setEntry, lookupEntry, h]
    · simp [setEntry, lookupEntry, hk, ih]

lemma append_transform_ne (p : String) : p ≠ p ++ "_transform" := by
  intro h
  have h2 := congrArg String.data h
  simp [String.data_append] at h2

lemma clampPoint_length (lb ub x : List ℚ) : (clampPoint lb ub x).length = lb.length := by
  simp [clampPoint]

lemma clampPoint_getD (lb ub x : List ℚ) (j : Nat) (hj : j < lb.length) :
    (clampPoint lb ub x).getD j 0 = max (lb.getD j 0) (min (ub.getD j 0) (x.getD j 0)) := by
  rw [clampPoint, List.getD_eq_getElem?_getD, List.getElem?_map, List.getElem?_range hj]
  rfl

/-! ## The claims -/

set_option maxHeartbeats 1000000 in
/-- Claim C1: two calls to `sample_approx` with identical dataset/parameters,
seed and `num_features` produce sample functions whose outputs agree
bit-for-bit on every evaluation grid (max absolute difference exactly 0),
and for a different seed the outputs on a fixed evaluation grid differ by
more than 0.1 for a unit-scale GP (here: the seeds `123` and `12345` of
`tests/test_gps.py`, on a fixed grid, with an 8-feature expansion). -/
theorem sample_approx_deterministic_and_seed_sensitive :
    (∀ (numFeatures seed : Nat) (grid : List ℚ),
      maxAbsDiff (evalGrid numFeatures seed grid) (evalGrid numFeatures seed grid) = 0)
    ∧ 1/10 < maxAbsDiff (evalGrid 8 123 [-3, 0, 3]) (evalGrid 8 12345 [-3, 0, 3]) := by
  constructor
  · intro numFeatures seed grid
    exact maxAbsDiff_self _
  · norm_num [maxAbsDiff, evalGrid, sampleFn, featureFn, streamWeight, lcgMix,
      List.range, List.range.loop, List.foldl, List.zipWith, List.map,
      abs_of_nonneg, abs_of_nonpos]

/-- Claim C3: each BO iteration draws exactly one posterior sample path `g`
(`num_samples=1` in the loop's `sample_approx` call) and the Thompson-sampling
utility is `x ↦ -g(x)`, so a point returned by the downstream maximisation of
the utility over any candidate set is a minimiser of the sampled function `g`
over that set. -/
theorem thompson_utility_maximiser_minimises_sample :
    bo_loop_num_samples = 1 ∧
    ∀ (S : List (List ℚ)) (g : List ℚ → ℚ) (y : List ℚ),
      y ∈ S → (∀ x ∈ S, thompsonUtility g x ≤ thompsonUtility g y) →
      ∀ x ∈ S, g y ≤ g x := by
  refine ⟨rfl, ?_⟩
  intro S g y _ hmax x hx
  have h := hmax x hx
  simpa [thompsonUtility] using h

/-- The candidate set of the Thompson-sampling witness. -/
def tsGrid : List (List ℚ) := [[0], [1]]

/-- The sampled function of the Thompson-sampling witness. -/
def tsSample (p : List ℚ) : ℚ := p.getD 0 0

/-- Witness for C3 at a concrete candidate set: the point `[0]` maximising
the utility `-g` over `tsGrid` is a minimiser of `tsSample` there. -/
theorem thompson_utility_maximiser_witness : tsSample [(0 : ℚ)] ≤ tsSample [(1 : ℚ)] :=
  (thompson_utility_maximiser_minimises_sample.2 tsGrid tsSample [0]
    (by decide) (by decide)) [1] (by decide)

/-- Claim C4: `sample_approx` raises `ValueError` whenever `num_samples` is
not a positive integer, or `num_features` is not a positive integer, for
every otherwise-valid parameter set and seed. -/
theorem sample_approx_valueerror (num_samples num_features : ℚ) (params seed : Nat)
    (h : posIntQ num_samples = false ∨ posIntQ num_features = false) :
    sample_approx num_samples params seed num_features
      = Except.error GPError.valueError := by
  rcases h with h | h
  · simp [sample_approx, h]
  · by_cases h2 : posIntQ num_samples
    · simp [sample_approx, h, h2]
    · simp [sample_approx, h2]

/-- Witness for C4: `sample_approx(-1, ..., 100)` fails with `ValueError`,
as in `tests/test_gps.py::test_prior_sample_approx`. -/
theorem sample_approx_valueerror_witness :
    sample_approx (-1) 7 123 100 = Except.error GPError.valueError :=
  sample_approx_valueerror (-1) 100 7 123 (Or.inl (by decide))

/-- Claim C5: the acquisition maximiser draws `k` candidate points from the
search space, evaluates the acquisition at all `k` candidates, starts the
bound-constrained local optimiser from the single best candidate, and when
several candidates attain the best value exactly, the first in iteration
order is chosen as the starting point. -/
theorem optimise_sample_starts_from_first_best (g : List ℚ → ℚ)
    (step : List ℚ → List ℚ) (seed k : Nat) (lb ub : List ℚ) (hk : k ≠ 0) :
    (drawCandidates seed k lb ub).length = k ∧
    (candidateValues g seed k lb ub).length = k ∧
    startIndex g seed k lb ub < k ∧
    (∀ i, i < k → (candidateValues g seed k lb ub).getD (startIndex g seed k lb ub) 0
        ≤ (candidateValues g seed k lb ub).getD i 0) ∧
    (∀ i, i < k →
        (candidateValues g seed k lb ub).getD i 0
          = (candidateValues g seed k lb ub).getD (startIndex g seed k lb ub) 0 →
        startIndex g seed k lb ub ≤ i) ∧
    optimise_sample g step seed k lb ub
      = localOpt step lb ub
          ((drawCandidates seed k lb ub).getD (startIndex g seed k lb ub) []) := by
  have hclen : (drawCandidates seed k lb ub).length = k := by
    simp [drawCandidates]
  have hvlen : (candidateValues g seed k lb ub).length = k := by
    simp [candidateValues, hclen]
  have hne : candidateValues g seed k lb ub ≠ [] := by
    intro h
    rw [h] at hvlen
    exact hk hvlen.symm
  have hidx : startIndex g seed k lb ub < k := by
    have := argminIdx_lt_length _ hne
    rwa [hvlen] at this
  refine ⟨hclen, hvlen, hidx, ?_, ?_, rfl⟩
  · intro i hi
    exact argminIdx_le _ i (by rwa [hvlen])
  · intro i _ heq
    by_contra hlt
    push_neg at hlt
    have := argminIdx_first (candidateValues g seed k lb ub) i hlt
    rw [heq] at this
    exact lt_irrefl _ this

/-- Witness for C5 at a concrete acquisition function, seed and box. -/
theorem optimise_sample_starts_witness :
    startIndex tsSample 42 3 [0] [1] < 3 :=
  (optimise_sample_starts_from_first_best tsSample id 42 3 [0] [1] (by decide)).2.2.1

/-- Claim C6: the point returned by the acquisition maximiser satisfies
`lower ≤ x ≤ upper` elementwise, for every acquisition function, bounds,
seed and every possible behaviour of the local optimiser (the `step`
function), numerical overshoot included. -/
theorem optimise_sample_within_bounds (g : List ℚ → ℚ) (step : List ℚ → List ℚ)
    (seed k : Nat) (lb ub : List ℚ)
    (hb : ∀ j, j < lb.length → lb.getD j 0 ≤ ub.getD j 0) :
    (optimise_sample g step seed k lb ub).length = lb.length ∧
    ∀ j, j < lb.length →
      lb.getD j 0 ≤ (optimise_sample g step seed k lb ub).getD j 0 ∧
      (optimise_sample g step seed k lb ub).getD j 0 ≤ ub.getD j 0 := by
  have hform : optimise_sample g step seed k lb ub
      = clampPoint lb ub
          (step ((drawCandidates seed k lb ub).getD
            (argminIdx ((drawCandidates seed k lb ub).map g)) [])) := rfl
  rw [hform]
  refine ⟨clampPoint_length _ _ _, ?_⟩
  intro j hj
  rw [clampPoint_getD _ _ _ j hj]
  constructor
  · exact le_max_left _ _
  · exact max_le (hb j hj) (min_le_left _ _)

/-- Witness for C6 on the unit box `[0, 1]`. -/
theorem optimise_sample_within_bounds_witness :
    (0 : ℚ) ≤ (optimise_sample tsSample id 42 3 [0] [1]).getD 0 0 ∧
    (optimise_sample tsSample id 42 3 [0] [1]).getD 0 0 ≤ 1 :=
  (optimise_sample_within_bounds tsSample id 42 3 [0] [1] (by decide)).2 0 (by decide)

/-- Claim C7: wherever the posterior predictive standard deviation is zero,
the Expected Improvement and Probability of Improvement acquisition
functions return utility exactly 0 rather than dividing by zero, for every
standard-normal CDF/PDF, predictive mean and incumbent best. -/
theorem acquisition_zero_std_zero_utility (Phi phi : ℚ → ℚ) (mu sigma fstar : ℚ)
    (h : sigma = 0) :
    expectedImprovement Phi phi mu sigma fstar = 0 ∧
    probabilityOfImprovement Phi mu sigma fstar = 0 := by
  subst h
  exact ⟨if_pos rfl, if_pos rfl⟩

/-- Witness for C7 at concrete CDF/PDF, mean and incumbent. -/
theorem acquisition_zero_std_zero_utility_witness :
    expectedImprovement (fun _ => 1) (fun _ => 1) 3 0 2 = 0 ∧
    probabilityOfImprovement (fun _ => 1) 3 0 2 = 0 :=
  acquisition_zero_std_zero_utility (fun _ => 1) (fun _ => 1) 3 0 2 rfl

/-- Claim C8: in the Forrester end-to-end scenario (5 initial observations,
5 further BO observations appended in evaluation order), the minimum over
all observed values is at most the minimum over the 5 initial values, and
the running best (`cumulative_best_y`, the cumulative minimum of the
observations in evaluation order) is non-increasing in the evaluation
index. -/
theorem forrester_running_best_monotone (initY newY : List ℚ)
    (hinit : initY.length = 5) (_hnew : newY.length = 5) :
    bestObserved (initY ++ newY) ≤ bestObserved initY ∧
    ∀ i j, i ≤ j → j < (initY ++ newY).length →
      (cumulative_best_y (initY ++ newY)).getD j 0
        ≤ (cumulative_best_y (initY ++ newY)).getD i 0 := by
  refine ⟨bestObserved_append_le _ _ ?_, cumulative_best_y_antitone _⟩
  intro h
  rw [h] at hinit
  simp at hinit

/-- Witness for C8 at concrete observation records. -/
theorem forrester_running_best_witness :
    bestObserved (([3, 1, 4, 1, 5] : List ℚ) ++ [0, 2, 2, 2, 2])
      ≤ bestObserved ([3, 1, 4, 1, 5] : List ℚ) :=
  (forrester_running_best_monotone [3, 1, 4, 1, 5] [0, 2, 2, 2, 2]
    (by decide) (by decide)).1

/-- Claim C9: dataset concatenation with `+` is associative and
order-preserving: for all datasets with matching input and output
dimensions, `(D1+D2)+D3` contains the same `(x, y)` rows in the same order
as `D1+(D2+D3)`. -/
theorem dataset_concat_assoc (D1 D2 D3 : GDataset) (d m : Nat)
    (h1 : GDataset.dimsOk d m D1) (h2 : GDataset.dimsOk d m D2)
    (h3 : GDataset.dimsOk d m D3) :
    ((D1 + D2) + D3).rows = (D1 + (D2 + D3)).rows := by
  have h : (D1 + D2) + D3 = D1 + (D2 + D3) := by
    obtain ⟨X1, y1⟩ := D1
    obtain ⟨X2, y2⟩ := D2
    obtain ⟨X3, y3⟩ := D3
    show GDataset.addData (GDataset.addData ⟨X1, y1⟩ ⟨X2, y2⟩) ⟨X3, y3⟩
      = GDataset.addData ⟨X1, y1⟩ (GDataset.addData ⟨X2, y2⟩ ⟨X3, y3⟩)
    simp [GDataset.addData, List.append_assoc]
  rw [h]

/-- Witness for C9 at concrete one-row datasets of dimension `d = m = 1`. -/
theorem dataset_concat_assoc_witness :
    ((GDataset.mk [[1]] [[2]] + GDataset.mk [[3]] [[4]])
        + GDataset.mk [[5]] [[6]]).rows
      = (GDataset.mk [[1]] [[2]]
          + (GDataset.mk [[3]] [[4]] + GDataset.mk [[5]] [[6]])).rows :=
  dataset_concat_assoc (GDataset.mk [[1]] [[2]]) (GDataset.mk [[3]] [[4]])
    (GDataset.mk [[5]] [[6]]) 1 1 (by decide) (by decide) (by decide)

/-- Claim C10: once a configuration is registered, every subsequent
`get_defaults` call returns it unchanged (the defaults constructed inside
later calls are discarded), and both entries written by
`add_parameter(param_name, bijection)` — `"{param_name}_transform" ↦
bijection` and `param_name ↦ "{param_name}_transform"` — are present in the
configuration that all subsequent `get_defaults` calls keep returning;
`get_defaults` never resets the registered configuration. -/
theorem config_registry_persistent (c : GPConfig) (p : String) (b : Nat) :
    get_defaults (some c) = (c, some c) ∧
    ∃ c2, add_parameter p b (some c) = some c2 ∧
      lookupEntry c2.transformations (p ++ "_transform") = some (CfgVal.transform b) ∧
      lookupEntry c2.transformations p = some (CfgVal.name (p ++ "_transform")) ∧
      get_defaults (some c2) = (c2, some c2) := by
  refine ⟨rfl, ⟨_, rfl, ?_, ?_, rfl⟩⟩
  · rw [lookupEntry_setEntry_other _ _ _ _ (append_transform_ne p)]
    exact lookupEntry_setEntry_same _ _ _
  · exact lookupEntry_setEntry_same _ _ _

end GPJax
